import Mathlib

/-!
Verification of the authentication core of `ai_poc_001`
(`src/services/token-service.ts`, `src/services/password-service.ts`,
`src/services/auth-service.ts`, `src/middleware/auth-middleware.ts`,
`src/types/user.ts`).

Strings are embedded as `List Char` (a JS string is a sequence of
code units; every character class used by the code is ASCII, where the
two notions of string agree).  Clock reads (`Date.now()`) become
explicit `Nat` parameters in epoch milliseconds.  The opaque
cryptographic primitives (base64url, `JSON.stringify`/`parse`,
HMAC-SHA256, SHA-256) are parameters of the embedding: the theorems
quantify over them, assuming only the properties the real primitives
have (round-tripping codecs, separator-free alphabets), stated
pointwise as hypotheses.
-/

namespace Auth

abbrev Str := List Char

/-- `String.prototype.split(sep)` for a one-character separator, on the
character-list embedding of strings.  `splitCh sep s` never returns `[]`
(JS `"".split(".") === [""]`). -/
def splitCh (sep : Char) : Str → List Str
  | [] => [[]]
  | c :: rest =>
    if c = sep then [] :: splitCh sep rest
    else
      match splitCh sep rest with
      | [] => [[c]]
      | s :: ss => (c :: s) :: ss

theorem splitCh_ne_nil (sep : Char) (l : Str) : splitCh sep l ≠ [] := by
  induction l with
  | nil => simp [splitCh]
  | cons c rest ih =>
    simp only [splitCh]
    split
    · simp
    · match h : splitCh sep rest with
      | [] => simp
      | s :: ss => simp

/-- Splitting a separator-free string returns the string itself as the
single segment. -/
theorem splitCh_no_sep (sep : Char) (l : Str) (h : sep ∉ l) :
    splitCh sep l = [l] := by
  induction l with
  | nil => rfl
  | cons c rest ih =>
    simp only [List.mem_cons, not_or] at h
    simp only [splitCh]
    rw [if_neg (fun hc => h.1 hc.symm), ih h.2]

/-- Splitting past a leading separator-free segment peels it off. -/
theorem splitCh_append (sep : Char) (a r : Str) (ha : sep ∉ a) :
    splitCh sep (a ++ sep :: r) = a :: splitCh sep r := by
  induction a with
  | nil => simp [splitCh]
  | cons c rest ih =>
    simp only [List.mem_cons, not_or] at ha
    rw [List.cons_append]
    simp only [splitCh]
    rw [if_neg (fun hc => ha.1 hc.symm), ih ha.2]

/-- A three-segment join of separator-free pieces splits back into the
three pieces. -/
theorem splitCh_three (sep : Char) (a b c : Str)
    (ha : sep ∉ a) (hb : sep ∉ b) (hc : sep ∉ c) :
    splitCh sep (a ++ sep :: (b ++ sep :: c)) = [a, b, c] := by
  rw [splitCh_append sep a _ ha, splitCh_append sep b _ hb,
    splitCh_no_sep sep c hc]

/-! ### Token service (`src/services/token-service.ts`) -/

/-- `TokenPayload` (token-service.ts): `{ userId, issuedAt, expiresAt }`,
timestamps in epoch milliseconds. -/
structure TokenPayload where
  userId : Str
  issuedAt : Nat
  expiresAt : Nat
deriving DecidableEq, Repr

/-- The opaque serialization and signing primitives of
`JWTTokenService`, as parameters.  `encHeader` is the base64url
encoding of the fixed JSON header `{alg:'HS256',typ:'JWT'}`;
`encPayload`/`decPayload` are `base64UrlEncode ∘ JSON.stringify` and
`JSON.parse ∘ base64UrlDecode` on payloads (`decPayload` returns `none`
when decode or parse throws); `hmac` is
`createHmac('sha256', secret).update(·).digest('base64url')` with the
service's fixed secret baked in. -/
structure Crypto where
  encHeader : Str
  encPayload : TokenPayload → Str
  decPayload : Str → Option TokenPayload
  hmac : Str → Str

/-- Errors thrown by `JWTTokenService`, one constructor per distinct
`throw new Error(...)` site. -/
inductive TokenError
  | revoked
  | invalidFormat
  | invalidSignature
  | invalidPayload
  | expired
deriving DecidableEq, Repr

/-- The message string of each `JWTTokenService` error. -/
def TokenError.message : TokenError → String
  | .revoked => "Token has been revoked"
  | .invalidFormat => "Invalid token format"
  | .invalidSignature => "Invalid token signature"
  | .invalidPayload => "Invalid token payload"
  | .expired => "Token has expired"

/-- `expirationHours * 60 * 60 * 1000` with `expirationHours = 24`. -/
def expirationMs : Nat := 24 * 60 * 60 * 1000

/-- JS `a !== b` on strings, with cost semantics: the result, paired
with the number of character comparisons a left-to-right
first-difference scan performs (the scan stops at the first mismatching
character).  `(strEqEE a b).1` is `true` iff `a = b`. -/
def strEqEE : Str → Str → Bool × Nat
  | [], [] => (true, 0)
  | _ :: _, [] => (false, 0)
  | [], _ :: _ => (false, 0)
  | a :: as, b :: bs =>
    if a = b then
      let r := strEqEE as bs
      (r.1, r.2 + 1)
    else (false, 1)

theorem strEqEE_eq_true_iff (a b : Str) : (strEqEE a b).1 = true ↔ a = b := by
  induction a generalizing b with
  | nil => cases b <;> simp [strEqEE]
  | cons x xs ih =>
    cases b with
    | nil => simp [strEqEE]
    | cons y ys =>
      by_cases hxy : x = y
      · subst hxy
        simp [strEqEE, ih]
      · simp [strEqEE, hxy]

/-- `JWTTokenService.createToken`: sign `encHeader ++ "." ++ encPayload`
and join the three segments with `"."`. -/
def createToken (c : Crypto) (p : TokenPayload) : Str :=
  let eh := c.encHeader
  let ep := c.encPayload p
  let sig := c.hmac (eh ++ '.' :: ep)
  eh ++ '.' :: (ep ++ '.' :: sig)

/-- `JWTTokenService.generateToken`: capture `now`, embed
`{userId, issuedAt := now, expiresAt := now + 24h}`. -/
def generateToken (c : Crypto) (now : Nat) (userId : Str) : Str :=
  createToken c { userId := userId, issuedAt := now, expiresAt := now + expirationMs }

/-- `JWTTokenService.decodeToken`: split on `"."`; exactly three
segments or `invalidFormat`; recompute the signature over the first two
segments and compare with JS `!==` (the early-exit scan `strEqEE`) or
`invalidSignature`; decode the payload or `invalidPayload`. -/
def decodeToken (c : Crypto) (token : Str) : Except TokenError TokenPayload :=
  match splitCh '.' token with
  | [eh, ep, sig] =>
    let expected := c.hmac (eh ++ '.' :: ep)
    if (strEqEE sig expected).1 = false then .error .invalidSignature
    else
      match c.decPayload ep with
      | some p => .ok p
      | none => .error .invalidPayload
  | _ => .error .invalidFormat

/-- `JWTTokenService.validateToken`: revocation check first, then
decode, then `Date.now() > payload.expiresAt` check; returns
`payload.userId`. -/
def validateToken (c : Crypto) (revoked : List Str) (now : Nat) (token : Str) :
    Except TokenError Str :=
  if token ∈ revoked then .error .revoked
  else
    match decodeToken c token with
    | .error e => .error e
    | .ok p => if now > p.expiresAt then .error .expired else .ok p.userId

/-- `JWTTokenService.revokeToken`: `revokedTokens.add(token)`. -/
def revokeToken (revoked : List Str) (token : Str) : List Str :=
  token :: revoked

/-- `JWTTokenService.getTokenExpiration`: `Date.now() + 24h` (a fresh
clock read, not tied to any token). -/
def getTokenExpiration (now : Nat) : Nat :=
  now + expirationMs

/-- The public operations of `JWTTokenService`; each request invokes
one of them on the shared service state. -/
inductive TokenOp
  | generate (now : Nat) (userId : Str)
  | validate (now : Nat) (token : Str)
  | revoke (token : Str)
  | getExpiration (now : Nat)

/-- Effect of one `JWTTokenService` operation on the service's only
mutable state, the `revokedTokens` set: only `revokeToken` writes it. -/
def applyOp (revoked : List Str) : TokenOp → List Str
  | .revoke t => revokeToken revoked t
  | _ => revoked

/-- Effect of a sequence of operations on the revocation set. -/
def applyOps (revoked : List Str) : List TokenOp → List Str
  | [] => revoked
  | op :: ops => applyOps (applyOp revoked op) ops

theorem applyOps_mono (revoked : List Str) (ops : List TokenOp) (t : Str)
    (h : t ∈ revoked) : t ∈ applyOps revoked ops := by
  induction ops generalizing revoked with
  | nil => exact h
  | cons op ops ih =>
    apply ih
    cases op with
    | revoke s => exact List.mem_cons_of_mem _ h
    | generate now uid => exact h
    | validate now tok => exact h
    | getExpiration now => exact h

/-! ### Password service (`src/services/password-service.ts`) -/

/-- Lower-case hex digit of a nibble (the `0-9a-f` alphabet of
`Buffer.prototype.toString('hex')`). -/
def toHexChar (n : Nat) : Char :=
  if n < 10 then Char.ofNat ('0'.toNat + n)
  else if n < 16 then Char.ofNat ('a'.toNat + (n - 10))
  else '0'

/-- Numeric value of a hex digit (`Buffer.from(·, 'hex')` accepts both
cases). -/
def fromHexChar (c : Char) : Option Nat :=
  if '0' ≤ c ∧ c ≤ '9' then some (c.toNat - '0'.toNat)
  else if 'a' ≤ c ∧ c ≤ 'f' then some (c.toNat - 'a'.toNat + 10)
  else if 'A' ≤ c ∧ c ≤ 'F' then some (c.toNat - 'A'.toNat + 10)
  else none

/-- `Buffer.prototype.toString('hex')`: each byte as two lower-case hex
digits. -/
def hexEncode : List Nat → Str
  | [] => []
  | b :: bs => toHexChar (b / 16) :: toHexChar (b % 16) :: hexEncode bs

/-- `Buffer.from(·, 'hex')`: decode digit pairs, truncating at the
first invalid pair or dangling digit (Node never throws here). -/
def hexDecode : Str → List Nat
  | a :: b :: rest =>
    match fromHexChar a, fromHexChar b with
    | some ha, some hb => (ha * 16 + hb) :: hexDecode rest
    | _, _ => []
  | _ => []

/-- `crypto.timingSafeEqual` on two byte buffers, with cost semantics:
the result, paired with the number of byte comparisons performed.  The
scan always walks the whole (common length of the) buffers; it never
exits early on a mismatch.  Callers guarantee equal lengths
(`timingSafeEqual` throws otherwise, which `verifyPassword` turns into
`false` via its `catch`). -/
def ctCompare : List Nat → List Nat → Bool × Nat
  | [], [] => (true, 0)
  | a :: as, b :: bs =>
    let r := ctCompare as bs
    (r.1 && (a == b), r.2 + 1)
  | _, _ => (false, 0)

theorem ctCompare_eq_true_iff (a b : List Nat) : (ctCompare a b).1 = true ↔ a = b := by
  induction a generalizing b with
  | nil => cases b <;> simp [ctCompare]
  | cons x xs ih =>
    cases b with
    | nil => simp [ctCompare]
    | cons y ys => simp [ctCompare, ih, And.comm]

theorem ctCompare_steps (a b : List Nat) (h : a.length = b.length) :
    (ctCompare a b).2 = a.length := by
  induction a generalizing b with
  | nil => cases b with
    | nil => rfl
    | cons y ys => simp at h
  | cons x xs ih =>
    cases b with
    | nil => simp at h
    | cons y ys =>
      simp only [List.length_cons, Nat.succ.injEq] at h
      simp [ctCompare, ih ys h]

/-- `BcryptPasswordService.hashPassword`: reject an empty password
(`validatePasswordInput`), then store `salt ++ ":" ++ hex(sha256(password ++ salt))`.
`digest` stands for SHA-256 (bytes out), `salt` for the fresh
`randomBytes(16).toString('hex')` of this call. -/
def hashPassword (digest : Str → List Nat) (salt : Str) (password : Str) :
    Except String Str :=
  if password = [] then .error "Password cannot be empty"
  else .ok (salt ++ ':' :: hexEncode (digest (password ++ salt)))

/-- `BcryptPasswordService.verifyPassword`: split the record on `":"`
into salt and stored digest (empty/missing pieces give `false`),
recompute the digest, hex-decode both and compare with
`timingSafeEqual`; a length mismatch there throws and the `catch`
returns `false`. -/
def verifyPassword (digest : Str → List Nat) (password hashed : Str) : Bool :=
  let parts := splitCh ':' hashed
  let salt := parts.getD 0 []
  let hash := parts.getD 1 []
  if salt = [] ∨ hash = [] then false
  else
    let newHash := hexEncode (digest (password ++ salt))
    let hb := hexDecode hash
    let nb := hexDecode newHash
    if hb.length ≠ nb.length then false
    else (ctCompare hb nb).1

/-- `/[A-Z]/.test` on one character. -/
def isUpperCh (c : Char) : Bool := decide ('A' ≤ c ∧ c ≤ 'Z')

/-- `/[a-z]/.test` on one character. -/
def isLowerCh (c : Char) : Bool := decide ('a' ≤ c ∧ c ≤ 'z')

/-- `/\d/.test` on one character. -/
def isDigitCh (c : Char) : Bool := decide ('0' ≤ c ∧ c ≤ '9')

/-- The special characters of the policy's symbol class
`[!@#$%^&*()_+\-=\[\]{};':"\\|,.<>\/?]`. -/
def specialChars : Str :=
  ['!', '@', '#', '$', '%', '^', '&', '*', '(', ')', '_', '+', '-', '=',
   '[', ']', '{', '}', ';', '\'', ':', '"', '\\', '|', ',', '.', '<', '>', '/', '?']

/-- Membership in the policy's symbol class. -/
def isSpecialCh (c : Char) : Bool := specialChars.contains c

/-- A JS line terminator: in a regex without the `s` flag, `.` matches
every character except `\n`, `\r`, U+2028 and U+2029. -/
def isLineTerminator (c : Char) : Bool :=
  c == '\n' || c == '\r' || c == Char.ofNat 0x2028 || c == Char.ofNat 0x2029

/-- `/(.)\1{2,}/.test`: some character occurs at three or more
consecutive positions.  The captured `(.)` never matches a line
terminator, so a run of newlines or carriage returns does not fire the
rule. -/
def hasTriple : Str → Bool
  | a :: b :: c :: rest =>
    (!(isLineTerminator a) && a == b && b == c) || hasTriple (b :: c :: rest)
  | _ => false

/-- A run of three or more identical consecutive characters with no
exclusions — the consecutive-repeat rule as the specification words it
("no run of 3 or more identical consecutive characters"), kept for
comparison with the `hasTriple` the code implements. -/
def hasTripleAnyChar : Str → Bool
  | a :: b :: c :: rest => (a == b && b == c) || hasTripleAnyChar (b :: c :: rest)
  | _ => false

/-- The fixed denylist `commonPasswords`. -/
def commonPasswords : List Str :=
  ["password".data, "123456".data, "qwerty".data, "admin".data, "letmein".data]

/-- JS `hay.includes(needle)`: substring containment. -/
def containsSub (hay needle : Str) : Bool := decide (needle <:+: hay)

def msgTooShort : String := "Password must be at least 8 characters long"
def msgTooLong : String := "Password must be no more than 128 characters long"
def msgUpper : String := "Password must contain at least one uppercase letter"
def msgLower : String := "Password must contain at least one lowercase letter"
def msgDigit : String := "Password must contain at least one number"
def msgSpecial : String := "Password must contain at least one special character"
def msgTriple : String := "Password cannot contain more than 2 consecutive identical characters"
def msgCommon : String := "Password cannot contain common words or patterns"

/-- The `errors` array `validatePasswordStrength` accumulates, one
`push` site per policy rule, in source order. -/
def strengthErrors (password : Str) : List String :=
  (if password.length < 8 then [msgTooShort] else []) ++
  (if password.length > 128 then [msgTooLong] else []) ++
  (if password.any isUpperCh = false then [msgUpper] else []) ++
  (if password.any isLowerCh = false then [msgLower] else []) ++
  (if password.any isDigitCh = false then [msgDigit] else []) ++
  (if password.any isSpecialCh = false then [msgSpecial] else []) ++
  (if hasTriple password then [msgTriple] else []) ++
  (if commonPasswords.any (fun w => containsSub (password.map Char.toLower) w)
    then [msgCommon] else [])

/-- `PasswordValidationResult`. -/
structure PasswordValidationResult where
  isValid : Bool
  errors : List String
deriving DecidableEq, Repr

/-- `BcryptPasswordService.validatePasswordStrength`: collect every
violated rule's message; `isValid` iff no rule fired. -/
def validatePasswordStrength (password : Str) : PasswordValidationResult :=
  { isValid := (strengthErrors password).length == 0
    errors := strengthErrors password }

/-! ### Auth service and middleware (`src/services/auth-service.ts`,
`src/middleware/auth-middleware.ts`, `src/types/user.ts`) -/

/-- `User` (types/user.ts), restricted to the fields the verified
operations read (`roles`, `profile` and the audit timestamps are
carried through untouched by every operation modelled here). -/
structure User where
  id : Str
  email : Str
  username : Str
  hashedPassword : Str
  isActive : Bool
deriving DecidableEq, Repr

/-- The error outcomes of `DefaultAuthService`, one constructor per
distinct throw site. -/
inductive AuthError
  | weakPassword (errors : List String)
  | alreadyExists (field value : Str)
  | invalidCredentials
  | deactivated
  | notFound (id : Str)
  | inputError (msg : String)
  | tokenError (e : TokenError)
deriving DecidableEq, Repr

/-- The message each `DefaultAuthService` error carries
(types/user.ts error classes and inline `new Error(...)` sites). -/
def AuthError.message : AuthError → String
  | .weakPassword _ => "Password validation failed"
  | .alreadyExists _ _ => "User already exists"
  | .invalidCredentials => "Invalid email or password"
  | .deactivated => "User account is deactivated"
  | .notFound _ => "User not found"
  | .inputError m => m
  | .tokenError e => e.message

/-- The user-lookup collaborator (`UserRepository`), reads only;
`create` returns the identity the store built from the registration
data and password hash. -/
structure UserRepository where
  findByEmail : Str → Option User
  findByUsername : Str → Option User
  findById : Str → Option User
  create : Str → Str → Str → User

/-- `AuthenticationResult`. -/
structure AuthResult where
  user : User
  token : Str
  expiresAt : Nat
deriving DecidableEq, Repr

/-- `UserRegistrationData`, restricted to the fields the orchestrator
reads. -/
structure RegistrationData where
  email : Str
  username : Str
  password : Str

/-- `DefaultAuthService.register`: strength check, duplicate-email and
duplicate-username checks, hash, create, token issue.  `t1` is the
clock read inside `generateToken`, `t2` the later read inside
`getTokenExpiration`. -/
def register (repo : UserRepository) (digest : Str → List Nat) (salt : Str)
    (c : Crypto) (t1 t2 : Nat) (data : RegistrationData) :
    Except AuthError AuthResult :=
  if (validatePasswordStrength data.password).isValid = false then
    .error (.weakPassword (validatePasswordStrength data.password).errors)
  else
    match repo.findByEmail data.email with
    | some _ => .error (.alreadyExists "email".data data.email)
    | none =>
      match repo.findByUsername data.username with
      | some _ => .error (.alreadyExists "username".data data.username)
      | none =>
        match hashPassword digest salt data.password with
        | .error m => .error (.inputError m)
        | .ok hashed =>
          let user := repo.create data.email data.username hashed
          .ok { user := user, token := generateToken c t1 user.id
                expiresAt := getTokenExpiration t2 }

/-- `DefaultAuthService.login`: unknown email and failed verification
both throw `InvalidCredentialsError`; then the inactive check; then
token issue.  (`updateLastLogin` touches only the store's audit field
and is not modelled.) -/
def login (repo : UserRepository) (digest : Str → List Nat) (c : Crypto)
    (t1 t2 : Nat) (email password : Str) : Except AuthError AuthResult :=
  match repo.findByEmail email with
  | none => .error .invalidCredentials
  | some user =>
    if verifyPassword digest password user.hashedPassword = false then
      .error .invalidCredentials
    else if user.isActive = false then .error .deactivated
    else
      .ok { user := user, token := generateToken c t1 user.id
            expiresAt := getTokenExpiration t2 }

/-- `DefaultAuthService.validateToken`: token-service validation, then
the store lookup of the subject id, then the active check. -/
def authValidateToken (repo : UserRepository) (c : Crypto) (revoked : List Str)
    (now : Nat) (token : Str) : Except AuthError User :=
  match validateToken c revoked now token with
  | .error e => .error (.tokenError e)
  | .ok uid =>
    match repo.findById uid with
    | none => .error (.notFound uid)
    | some user =>
      if user.isActive = false then .error .deactivated else .ok user

/-- `DefaultAuthService.refreshToken`: validate the presented token,
re-check existence and active status, then issue a brand-new token.
The presented token is never passed to `revokeToken`. -/
def refreshToken (repo : UserRepository) (c : Crypto) (revoked : List Str)
    (now t1 t2 : Nat) (token : Str) : Except AuthError AuthResult :=
  match validateToken c revoked now token with
  | .error e => .error (.tokenError e)
  | .ok uid =>
    match repo.findById uid with
    | none => .error (.notFound uid)
    | some user =>
      if user.isActive = false then .error .deactivated
      else
        .ok { user := user, token := generateToken c t1 user.id
              expiresAt := getTokenExpiration t2 }

/-- `DefaultAuthService.logout`: unconditional revocation. -/
def logout (revoked : List Str) (token : Str) : List Str :=
  revokeToken revoked token

/-- The token-service invocations `DefaultAuthService.refreshToken`
makes on the success path, in order: validate the presented token,
generate the new one, read the expiration clock. -/
def refreshTokenOps (now t1 t2 : Nat) (token uid : Str) : List TokenOp :=
  [.validate now token, .generate t1 uid, .getExpiration t2]

/-- Outcome of the Express middleware `authenticate`: `success` calls
`next()` with `req.user` set; `unauthorized` is a 401 response,
`forbidden` a 403. -/
inductive AuthOutcome
  | success (user : User)
  | unauthorized (msg : String)
  | forbidden (msg : String)
deriving DecidableEq, Repr

/-- `DefaultAuthMiddleware.extractToken`: the `Authorization` header
must read `Bearer <token>`. -/
def extractToken (authHeader : Option Str) : Option Str :=
  match authHeader with
  | none => none
  | some h =>
    match splitCh ' ' h with
    | [scheme, tok] => if scheme = "Bearer".data then some tok else none
    | _ => none

/-- `DefaultAuthMiddleware.authenticate`: extract the bearer token,
validate it (any `validateToken` throw is caught into a 401 carrying
the error's message), look the subject up, reject missing users with
401 and inactive users with 403, otherwise proceed with the user. -/
def authenticate (c : Crypto) (revoked : List Str) (now : Nat)
    (findById : Str → Option User) (authHeader : Option Str) : AuthOutcome :=
  match extractToken authHeader with
  | none => .unauthorized "Authentication token required"
  | some token =>
    match validateToken c revoked now token with
    | .error e => .unauthorized e.message
    | .ok uid =>
      match findById uid with
      | none => .unauthorized "Invalid authentication token"
      | some user =>
        if user.isActive = false then .forbidden "User account is deactivated"
        else .success user

/-! ### Support lemmas -/

theorem fromHexChar_toHexChar (n : Nat) (h : n < 16) :
    fromHexChar (toHexChar n) = some n := by
  interval_cases n <;> decide

theorem toHexChar_ne_colon (n : Nat) : toHexChar n ≠ ':' := by
  by_cases h : n < 16
  · interval_cases n <;> decide
  · unfold toHexChar
    rw [if_neg (by omega), if_neg (by omega)]
    decide

theorem colon_not_mem_hexEncode (bs : List Nat) : ':' ∉ hexEncode bs := by
  induction bs with
  | nil => simp [hexEncode]
  | cons b rest ih =>
    simp only [hexEncode, List.mem_cons, not_or]
    exact ⟨fun h => toHexChar_ne_colon _ h.symm, fun h => toHexChar_ne_colon _ h.symm, ih⟩

theorem hexEncode_ne_nil (bs : List Nat) (h : bs ≠ []) : hexEncode bs ≠ [] := by
  cases bs with
  | nil => exact absurd rfl h
  | cons b rest => simp [hexEncode]

theorem hexDecode_hexEncode (bs : List Nat) (h : ∀ b ∈ bs, b < 256) :
    hexDecode (hexEncode bs) = bs := by
  induction bs with
  | nil => rfl
  | cons b rest ih =>
    have hb : b < 256 := h b (List.mem_cons_self ..)
    have h1 : b / 16 < 16 := by omega
    have h2 : b % 16 < 16 := by omega
    simp only [hexEncode, hexDecode, fromHexChar_toHexChar _ h1,
      fromHexChar_toHexChar _ h2]
    rw [ih (fun x hx => h x (List.mem_cons_of_mem _ hx))]
    congr 1
    omega

theorem strEqEE_refl (a : Str) : (strEqEE a a).1 = true :=
  (strEqEE_eq_true_iff a a).mpr rfl

/-- Decoding a well-formed three-segment token whose third segment is
not the recomputed signature fails with the signature error. -/
theorem decodeToken_sig_mismatch (c : Crypto) (token eh ep sig : Str)
    (hsplit : splitCh '.' token = [eh, ep, sig])
    (hne : sig ≠ c.hmac (eh ++ '.' :: ep)) :
    decodeToken c token = .error .invalidSignature := by
  unfold decodeToken
  rw [hsplit]
  have : (strEqEE sig (c.hmac (eh ++ '.' :: ep))).1 = false := by
    rcases Bool.eq_false_or_eq_true (strEqEE sig (c.hmac (eh ++ '.' :: ep))).1 with h | h
    · exact absurd ((strEqEE_eq_true_iff _ _).mp h) hne
    · exact h
  simp [this]

/-- Splitting a generated token recovers its three segments, provided
the codec and digest alphabets avoid the separator. -/
theorem splitCh_generateToken (c : Crypto) (uid : Str) (t0 : Nat)
    (hh : ('.' : Char) ∉ c.encHeader)
    (hp : ('.' : Char) ∉ c.encPayload ⟨uid, t0, t0 + expirationMs⟩)
    (hs : ('.' : Char) ∉ c.hmac (c.encHeader ++ '.' :: c.encPayload ⟨uid, t0, t0 + expirationMs⟩)) :
    splitCh '.' (generateToken c t0 uid) =
      [c.encHeader, c.encPayload ⟨uid, t0, t0 + expirationMs⟩,
       c.hmac (c.encHeader ++ '.' :: c.encPayload ⟨uid, t0, t0 + expirationMs⟩)] := by
  unfold generateToken createToken
  exact splitCh_three '.' _ _ _ hh hp hs

/-- Decoding a freshly generated token recovers the embedded payload,
provided the payload codec round-trips on it and the segment alphabets
avoid the separator. -/
theorem decodeToken_generateToken (c : Crypto) (uid : Str) (t0 : Nat)
    (hdec : c.decPayload (c.encPayload ⟨uid, t0, t0 + expirationMs⟩) =
      some ⟨uid, t0, t0 + expirationMs⟩)
    (hh : ('.' : Char) ∉ c.encHeader)
    (hp : ('.' : Char) ∉ c.encPayload ⟨uid, t0, t0 + expirationMs⟩)
    (hs : ('.' : Char) ∉ c.hmac (c.encHeader ++ '.' :: c.encPayload ⟨uid, t0, t0 + expirationMs⟩)) :
    decodeToken c (generateToken c t0 uid) = .ok ⟨uid, t0, t0 + expirationMs⟩ := by
  unfold decodeToken
  rw [splitCh_generateToken c uid t0 hh hp hs]
  simp [strEqEE_refl, hdec]

/-- A freshly generated, unrevoked token validates to its subject at
any check time up to and including the embedded expiry. -/
theorem validate_generated_ok (c : Crypto) (uid : Str) (t0 t : Nat) (revoked : List Str)
    (hdec : c.decPayload (c.encPayload ⟨uid, t0, t0 + expirationMs⟩) =
      some ⟨uid, t0, t0 + expirationMs⟩)
    (hh : ('.' : Char) ∉ c.encHeader)
    (hp : ('.' : Char) ∉ c.encPayload ⟨uid, t0, t0 + expirationMs⟩)
    (hs : ('.' : Char) ∉ c.hmac (c.encHeader ++ '.' :: c.encPayload ⟨uid, t0, t0 + expirationMs⟩))
    (hnr : generateToken c t0 uid ∉ revoked)
    (ht : t ≤ t0 + expirationMs) :
    validateToken c revoked t (generateToken c t0 uid) = .ok uid := by
  unfold validateToken
  rw [if_neg hnr, decodeToken_generateToken c uid t0 hdec hh hp hs]
  simp only []
  rw [if_neg (by simp; omega)]

/-! ### Concrete instances for closed evaluations -/

/-- A payload used to evaluate the theorems on closed inputs: subject
`"alice"`, issued at epoch 0. -/
def samplePayload : TokenPayload :=
  { userId := "alice".data, issuedAt := 0, expiresAt := expirationMs }

/-- A small concrete instantiation of the serialization and signing
primitives, used only to evaluate the theorems on closed inputs: the
sample payload is rendered as `"P"` (anything else as `"Q"`, which does
not decode), and the keyed digest tags its input with `'S'`, mapping
the separator to `'D'` so its output stays separator-free. -/
def sampleCrypto : Crypto :=
  { encHeader := ['H']
    encPayload := fun p => if p = samplePayload then ['P'] else ['Q']
    decPayload := fun s => if s = ['P'] then some samplePayload else none
    hmac := fun s => 'S' :: s.map (fun ch => if ch = '.' then 'D' else ch) }

/-! ### Claims -/

/-- **C1.** Once `revoke(T)` has run, `T` is in the revocation set, no
sequence of further token-service operations ever removes it (only
`revokeToken` touches the set, and it only inserts), and `validate(T)`
fails with the revocation error at every check time, for every codec
and signature — the revocation check precedes every other check. -/
theorem revoked_token_never_validates_again
    (c : Crypto) (revoked : List Str) (t : Str) (ops : List TokenOp) (now : Nat) :
    t ∈ revokeToken revoked t ∧
    t ∈ applyOps (revokeToken revoked t) ops ∧
    validateToken c (applyOps (revokeToken revoked t) ops) now t = .error .revoked := by
  have hmem : t ∈ revokeToken revoked t := List.mem_cons_self ..
  have hmem' : t ∈ applyOps (revokeToken revoked t) ops := applyOps_mono _ ops t hmem
  refine ⟨hmem, hmem', ?_⟩
  unfold validateToken
  rw [if_pos hmem']

/-- **C2 counterexample.** The claim asserts `ExpiredError` at every
check time ≥ T0+Δ, but a token issued at time 0 still validates
successfully at check time exactly `expirationMs` = T0+Δ: the code
expires tokens only strictly after `expiresAt`
(`Date.now() > payload.expiresAt`). -/
theorem validate_at_exact_expiry_succeeds :
    0 + expirationMs ≤ expirationMs ∧
    validateToken sampleCrypto [] expirationMs (generateToken sampleCrypto 0 "alice".data)
      = .ok "alice".data :=
  ⟨Nat.le_of_eq (Nat.zero_add _), rfl⟩

/-- **C2 (amended).** A token produced by `issue(subjectId)` at time T0
embeds `expiresAt = T0 + Δ` (Δ = 24 h in milliseconds), and — when not
revoked, with a round-tripping payload codec whose segments avoid the
separator — `validate` succeeds and returns `subjectId` at every check
time ≤ T0+Δ (so on all of [T0, T0+Δ) and at the boundary itself), and
fails with `ExpiredError` at every check time > T0+Δ. -/
theorem issued_token_validates_until_expiry (c : Crypto) (uid : Str)
    (t0 t : Nat) (revoked : List Str)
    (hdec : c.decPayload (c.encPayload ⟨uid, t0, t0 + expirationMs⟩) =
      some ⟨uid, t0, t0 + expirationMs⟩)
    (hh : ('.' : Char) ∉ c.encHeader)
    (hp : ('.' : Char) ∉ c.encPayload ⟨uid, t0, t0 + expirationMs⟩)
    (hs : ('.' : Char) ∉ c.hmac (c.encHeader ++ '.' :: c.encPayload ⟨uid, t0, t0 + expirationMs⟩))
    (hnr : generateToken c t0 uid ∉ revoked) :
    expirationMs = 24 * 60 * 60 * 1000 ∧
    decodeToken c (generateToken c t0 uid) = .ok ⟨uid, t0, t0 + expirationMs⟩ ∧
    (t ≤ t0 + expirationMs →
      validateToken c revoked t (generateToken c t0 uid) = .ok uid) ∧
    (t0 + expirationMs < t →
      validateToken c revoked t (generateToken c t0 uid) = .error .expired) := by
  refine ⟨rfl, decodeToken_generateToken c uid t0 hdec hh hp hs, ?_, ?_⟩
  · intro ht
    exact validate_generated_ok c uid t0 t revoked hdec hh hp hs hnr ht
  · intro ht
    unfold validateToken
    rw [if_neg hnr, decodeToken_generateToken c uid t0 hdec hh hp hs]
    simp only []
    rw [if_pos (by simp; omega)]

/-- Closed instance of the amended C2 theorem: the sample token issued
at time 0 validates at check time 5 and expires at `expirationMs + 1`. -/
theorem issued_token_validates_until_expiry_witness :
    (decodeToken sampleCrypto (generateToken sampleCrypto 0 "alice".data)
      = .ok ⟨"alice".data, 0, 0 + expirationMs⟩) ∧
    validateToken sampleCrypto [] 5 (generateToken sampleCrypto 0 "alice".data)
      = .ok "alice".data ∧
    validateToken sampleCrypto [] (expirationMs + 1) (generateToken sampleCrypto 0 "alice".data)
      = .error .expired := by
  have h := issued_token_validates_until_expiry sampleCrypto "alice".data 0 5 []
    (by decide) (by decide) (by decide) (by decide) (by simp)
  have h' := issued_token_validates_until_expiry sampleCrypto "alice".data 0
    (expirationMs + 1) [] (by decide) (by decide) (by decide) (by decide) (by simp)
  exact ⟨h.2.1, h.2.2.1 (by unfold expirationMs; omega), h'.2.2.2 (by omega)⟩

/-- **C3 counterexample.** Not every secret-dependent comparison is
constant-time: the token-signature comparison in `decodeToken` is JS
`!==` (`strEqEE`), whose scan stops at the first mismatching character
— on two signature pairs of the same length (3) it performs 1
comparison when the first character differs but 3 when only the last
differs, so its running time depends on the position of the mismatch,
not only on the lengths. -/
theorem token_signature_compare_not_constant_time :
    ("abc".data).length = ("xbc".data).length ∧
    ("abc".data).length = ("abx".data).length ∧
    (strEqEE "abc".data "xbc".data).2 = 1 ∧
    (strEqEE "abc".data "abx".data).2 = 3 ∧
    decodeToken sampleCrypto "H.P.XHDP".data = .error .invalidSignature := by
  refine ⟨rfl, rfl, rfl, rfl, rfl⟩

/-- **C3 (amended).** The password-verification comparison is
constant-time: `timingSafeEqual` (`ctCompare`) always performs exactly
one comparison per byte of its equal-length buffers, with no early
exit, and decides equality.  The token-signature comparison in
`decodeToken` is a plain string equality with an early exit on the
first mismatching character — not constant-time — but it still fails
with `InvalidSignatureError` on every mismatch. -/
theorem secret_comparisons_status (a b : List Nat) (c : Crypto)
    (token eh ep sig : Str) (hlen : a.length = b.length)
    (hsplit : splitCh '.' token = [eh, ep, sig])
    (hne : sig ≠ c.hmac (eh ++ '.' :: ep)) :
    (ctCompare a b).2 = a.length ∧
    ((ctCompare a b).1 = true ↔ a = b) ∧
    ((strEqEE sig (c.hmac (eh ++ '.' :: ep))).1 = true ↔
      sig = c.hmac (eh ++ '.' :: ep)) ∧
    decodeToken c token = .error .invalidSignature :=
  ⟨ctCompare_steps a b hlen, ctCompare_eq_true_iff a b,
   strEqEE_eq_true_iff _ _, decodeToken_sig_mismatch c token eh ep sig hsplit hne⟩

/-- Closed instance of the amended C3 theorem, at two 2-byte buffers
and the sample token with a corrupted signature segment. -/
theorem secret_comparisons_status_witness :
    (ctCompare [7, 7] [7, 9]).2 = [7, 7].length ∧
    decodeToken sampleCrypto "H.P.XHDP".data = .error .invalidSignature := by
  have h := secret_comparisons_status [7, 7] [7, 9] sampleCrypto
    "H.P.XHDP".data "H".data "P".data "XHDP".data rfl (by decide) (by decide)
  exact ⟨h.1, h.2.2.2⟩

/-- **C4.** For a token not in the revocation set, `validateToken`
checks, in order: segment count (≠ 3 ⇒ `MalformedTokenError`, the
`invalidFormat` message), then the recomputed signature against the
third segment (≠ ⇒ `InvalidSignatureError`), then payload decoding
(failure ⇒ `MalformedTokenError`, the `invalidPayload` message), then
expiry (`now > expiresAt` ⇒ `ExpiredError`), else success.  And a
well-formed signed token whose signature segment is replaced — or
whose payload segment is replaced such that the recomputed signature
differs — never validates: it fails with `InvalidSignatureError`. -/
theorem validation_error_order (c : Crypto) (revoked : List Str) (now : Nat)
    (token : Str) (hnr : token ∉ revoked) :
    ((splitCh '.' token).length ≠ 3 →
      validateToken c revoked now token = .error .invalidFormat) ∧
    (∀ eh ep sig, splitCh '.' token = [eh, ep, sig] →
      (sig ≠ c.hmac (eh ++ '.' :: ep) →
        validateToken c revoked now token = .error .invalidSignature) ∧
      (sig = c.hmac (eh ++ '.' :: ep) →
        (c.decPayload ep = none →
          validateToken c revoked now token = .error .invalidPayload) ∧
        (∀ p, c.decPayload ep = some p → p.expiresAt < now →
          validateToken c revoked now token = .error .expired) ∧
        (∀ p, c.decPayload ep = some p → now ≤ p.expiresAt →
          validateToken c revoked now token = .ok p.userId))) ∧
    (∀ eh ep sig', ('.' : Char) ∉ eh → ('.' : Char) ∉ ep → ('.' : Char) ∉ sig' →
      sig' ≠ c.hmac (eh ++ '.' :: ep) →
      eh ++ '.' :: (ep ++ '.' :: sig') ∉ revoked →
      validateToken c revoked now (eh ++ '.' :: (ep ++ '.' :: sig'))
        = .error .invalidSignature) := by
  refine ⟨?_, ?_, ?_⟩
  · intro hlen
    unfold validateToken
    rw [if_neg hnr]
    have hfmt : decodeToken c token = .error .invalidFormat := by
      unfold decodeToken
      match hsp : splitCh '.' token with
      | [] => rfl
      | [_] => rfl
      | [_, _] => rfl
      | [_, _, _] => rw [hsp] at hlen; simp at hlen
      | _ :: _ :: _ :: _ :: _ => rfl
    rw [hfmt]
  · intro eh ep sig hsplit
    constructor
    · intro hne
      unfold validateToken
      rw [if_neg hnr, decodeToken_sig_mismatch c token eh ep sig hsplit hne]
    · intro hsig
      have hdec : ∀ r, c.decPayload ep = r →
          decodeToken c token = (match r with
            | some p => .ok p
            | none => .error .invalidPayload) := by
        intro r hr
        unfold decodeToken
        rw [hsplit]
        subst hsig
        simp [strEqEE_refl, hr]
      refine ⟨?_, ?_, ?_⟩
      · intro hnone
        unfold validateToken
        rw [if_neg hnr, hdec none hnone]
      · intro p hp hexp
        unfold validateToken
        rw [if_neg hnr, hdec (some p) hp]
        simp only []
        rw [if_pos (by omega)]
      · intro p hp hexp
        unfold validateToken
        rw [if_neg hnr, hdec (some p) hp]
        simp only []
        rw [if_neg (by omega)]
  · intro eh ep sig' hh hp hs hne hnr'
    unfold validateToken
    rw [if_neg hnr',
      decodeToken_sig_mismatch c _ eh ep sig' (splitCh_three '.' eh ep sig' hh hp hs) hne]

/-- Closed instance of C4: a two-segment token is malformed; the
sample token with a corrupted signature or a corrupted (undecodable)
payload fails with the signature error; the intact sample token past
its expiry fails as expired. -/
theorem validation_error_order_witness :
    validateToken sampleCrypto [] 0 "H.P".data = .error .invalidFormat ∧
    validateToken sampleCrypto [] 0 "H.P.XHDP".data = .error .invalidSignature ∧
    validateToken sampleCrypto [] 0 "H.Q.SHDQ".data = .error .invalidPayload ∧
    validateToken sampleCrypto [] (expirationMs + 1) "H.P.SHDP".data
      = .error .expired ∧
    validateToken sampleCrypto [] 0 "H.X.SHDP".data = .error .invalidSignature := by
  have h1 := validation_error_order sampleCrypto [] 0 "H.P".data (by simp)
  have h2 := validation_error_order sampleCrypto [] 0 "H.P.XHDP".data (by simp)
  have h3 := validation_error_order sampleCrypto [] 0 "H.Q.SHDQ".data (by simp)
  have h4 := validation_error_order sampleCrypto [] (expirationMs + 1) "H.P.SHDP".data (by simp)
  have h5 := validation_error_order sampleCrypto [] 0 "H.X.SHDP".data (by simp)
  refine ⟨h1.1 (by decide), ?_, ?_, ?_, ?_⟩
  · exact (h2.2.1 "H".data "P".data "XHDP".data (by decide)).1 (by decide)
  · exact ((h3.2.1 "H".data "Q".data "SHDQ".data (by decide)).2 (by decide)).1 (by decide)
  · exact ((h4.2.1 "H".data "P".data "SHDP".data (by decide)).2 (by decide)).2.1
      samplePayload (by decide) (by decide)
  · exact h5.2.2 "H".data "X".data "SHDP".data (by decide) (by decide) (by decide)
      (by decide) (by simp)

/-- A digest stand-in for closed evaluations: one byte, the input
length mod 256. -/
def sampleDigest : Str → List Nat := fun s => [s.length % 256]

/-- A concrete active user whose stored record `"ab:04"` is the hash of
password `"pw"` with salt `"ab"` under `sampleDigest`. -/
def sampleUser : User :=
  { id := "alice".data, email := "a@x".data, username := "alice".data
    hashedPassword := "ab:04".data, isActive := true }

/-- A one-user store for closed evaluations. -/
def sampleRepo : UserRepository :=
  { findByEmail := fun e => if e = "a@x".data then some sampleUser else none
    findByUsername := fun _ => none
    findById := fun i => if i = "alice".data then some sampleUser else none
    create := fun _ _ _ => sampleUser }

/-- **C5.** `login` with an email that resolves to no identity, and
`login` with a resolving email but failing password verification, both
produce the very same `InvalidCredentialsError` value, whose message is
`"Invalid email or password"` — a caller cannot distinguish an unknown
user from a wrong password. -/
theorem login_enumeration_resistant (repo : UserRepository)
    (digest : Str → List Nat) (c : Crypto) (t1 t2 : Nat) (email pw : Str) :
    (repo.findByEmail email = none →
      login repo digest c t1 t2 email pw = .error .invalidCredentials) ∧
    (∀ u, repo.findByEmail email = some u →
      verifyPassword digest pw u.hashedPassword = false →
      login repo digest c t1 t2 email pw = .error .invalidCredentials) ∧
    AuthError.message .invalidCredentials = "Invalid email or password" := by
  refine ⟨?_, ?_, rfl⟩
  · intro hnone
    unfold login
    rw [hnone]
  · intro u hsome hverify
    unfold login
    rw [hsome]
    simp only [hverify, if_pos]

/-- Closed instance of C5: in the sample store, an unknown email and a
known email with the wrong password yield the identical error. -/
theorem login_enumeration_resistant_witness :
    login sampleRepo sampleDigest sampleCrypto 0 0 "nobody@x".data "pw".data
      = .error .invalidCredentials ∧
    login sampleRepo sampleDigest sampleCrypto 0 0 "a@x".data "wrong".data
      = .error .invalidCredentials := by
  refine ⟨?_, ?_⟩
  · exact (login_enumeration_resistant sampleRepo sampleDigest sampleCrypto 0 0
      "nobody@x".data "pw".data).1 (by decide)
  · exact (login_enumeration_resistant sampleRepo sampleDigest sampleCrypto 0 0
      "a@x".data "wrong".data).2.1 sampleUser (by decide) (by decide)

/-- `verifyPassword` on a well-formed `salt ++ ":" ++ digestHex` record
reduces to the hex-decoded, length-guarded `timingSafeEqual` of the
stored and recomputed digests. -/
theorem verifyPassword_record (digest : Str → List Nat) (password salt dig : Str)
    (hsalt : salt ≠ []) (hcolon : (':' : Char) ∉ salt)
    (hdig : (':' : Char) ∉ dig) (hdne : dig ≠ []) :
    verifyPassword digest password (salt ++ ':' :: dig) =
      if (hexDecode dig).length
          ≠ (hexDecode (hexEncode (digest (password ++ salt)))).length
      then false
      else (ctCompare (hexDecode dig)
        (hexDecode (hexEncode (digest (password ++ salt))))).1 := by
  unfold verifyPassword
  rw [splitCh_append ':' salt dig hcolon, splitCh_no_sep ':' dig hdig]
  simp [hsalt, hdne]

/-- **C6.** For every non-empty password `P`, `verify(P, hash(P))` is
`true`; and for distinct passwords, `verify(P1, hash(P2))` is `false`
whenever the two salted digests differ (the "overwhelming probability"
caveat: absent a digest collision).  `digest` stands for SHA-256, so
its output bytes are below 256 and non-empty; the salt is
`randomBytes(16).toString('hex')`, hence non-empty and colon-free. -/
theorem verify_hash_roundtrip (digest : Str → List Nat) (salt p1 p2 : Str)
    (hp1 : p1 ≠ []) (hp2 : p2 ≠ [])
    (hsalt : salt ≠ []) (hcolon : (':' : Char) ∉ salt)
    (hb1 : ∀ b ∈ digest (p1 ++ salt), b < 256)
    (hb2 : ∀ b ∈ digest (p2 ++ salt), b < 256)
    (hd1 : digest (p1 ++ salt) ≠ [])
    (hne : digest (p1 ++ salt) ≠ digest (p2 ++ salt)) :
    (∀ rec, hashPassword digest salt p1 = .ok rec →
      verifyPassword digest p1 rec = true) ∧
    (∀ rec, hashPassword digest salt p2 = .ok rec →
      verifyPassword digest p1 rec = false) := by
  constructor
  · intro rec hrec
    unfold hashPassword at hrec
    rw [if_neg hp1] at hrec
    cases hrec
    rw [verifyPassword_record digest p1 salt _ hsalt hcolon
      (colon_not_mem_hexEncode _) (hexEncode_ne_nil _ hd1)]
    rw [if_neg (by simp)]
    exact (ctCompare_eq_true_iff _ _).mpr rfl
  · intro rec hrec
    unfold hashPassword at hrec
    rw [if_neg hp2] at hrec
    cases hrec
    by_cases hd2 : digest (p2 ++ salt) = []
    · unfold verifyPassword
      rw [splitCh_append ':' salt _ hcolon, hd2]
      simp [hexEncode, splitCh]
    · rw [verifyPassword_record digest p1 salt _ hsalt hcolon
        (colon_not_mem_hexEncode _) (hexEncode_ne_nil _ hd2)]
      rw [hexDecode_hexEncode _ hb2, hexDecode_hexEncode _ hb1]
      by_cases hlen : (digest (p2 ++ salt)).length = (digest (p1 ++ salt)).length
      · rw [if_neg (by omega)]
        rcases Bool.eq_false_or_eq_true
            (ctCompare (digest (p2 ++ salt)) (digest (p1 ++ salt))).1 with h | h
        · exact absurd ((ctCompare_eq_true_iff _ _).mp h).symm hne
        · exact h
      · rw [if_pos (by omega)]

/-- Closed instance of C6 under `sampleDigest` and salt `"ab"`:
password `"pw"` verifies against its own record and password `"wrong"`
does not verify against it. -/
theorem verify_hash_roundtrip_witness :
    verifyPassword sampleDigest "pw".data "ab:04".data = true ∧
    verifyPassword sampleDigest "wrong".data "ab:07".data = true ∧
    verifyPassword sampleDigest "wrong".data "ab:04".data = false := by
  have h := verify_hash_roundtrip sampleDigest "ab".data "pw".data "wrong".data
    (by decide) (by decide) (by decide) (by decide)
    (by decide) (by decide) (by decide) (by decide)
  have h2 := verify_hash_roundtrip sampleDigest "ab".data "wrong".data "pw".data
    (by decide) (by decide) (by decide) (by decide)
    (by decide) (by decide) (by decide) (by decide)
  exact ⟨h.1 "ab:04".data rfl, h2.1 "ab:07".data rfl, h2.2 "ab:04".data rfl⟩

/-- **C7.** Success at the orchestrator boundary is only possible when
the token's subject id resolves, at validation time, to an identity
that the store knows and that is active: both
`DefaultAuthService.validateToken` and the middleware `authenticate`
return the found user only after `findById` succeeds and `isActive`
holds; the token alone is never authoritative. -/
theorem token_subject_must_be_active (repo : UserRepository) (c : Crypto)
    (revoked : List Str) (now : Nat) (token : Str)
    (findById : Str → Option User) (header : Option Str) :
    (∀ u, authValidateToken repo c revoked now token = .ok u →
      ∃ uid, validateToken c revoked now token = .ok uid ∧
        repo.findById uid = some u ∧ u.isActive = true) ∧
    (∀ u, authenticate c revoked now findById header = .success u →
      ∃ tok uid, extractToken header = some tok ∧
        validateToken c revoked now tok = .ok uid ∧
        findById uid = some u ∧ u.isActive = true) := by
  constructor
  · intro u hu
    unfold authValidateToken at hu
    split at hu
    · exact absurd hu (by simp)
    · rename_i uid hv
      split at hu
      · exact absurd hu (by simp)
      · rename_i user hf
        split at hu
        · exact absurd hu (by simp)
        · rename_i ha
          have huser : user = u := by injection hu
          subst huser
          exact ⟨uid, hv, hf, by simpa using ha⟩
  · intro u hu
    unfold authenticate at hu
    split at hu
    · exact absurd hu (by simp)
    · rename_i tok hx
      split at hu
      · exact absurd hu (by simp)
      · rename_i uid hv
        split at hu
        · exact absurd hu (by simp)
        · rename_i user hf
          split at hu
          · exact absurd hu (by simp)
          · rename_i ha
            have huser : user = u := by injection hu
            subst huser
            exact ⟨tok, uid, hx, hv, hf, by simpa using ha⟩

/-- Closed instance of C7: the sample token authenticates through both
boundaries, and the theorem exhibits the resolved, active identity. -/
theorem token_subject_must_be_active_witness :
    (∃ uid, validateToken sampleCrypto [] 0 "H.P.SHDP".data = .ok uid ∧
      sampleRepo.findById uid = some sampleUser ∧ sampleUser.isActive = true) ∧
    (∃ tok uid, extractToken (some "Bearer H.P.SHDP".data) = some tok ∧
      validateToken sampleCrypto [] 0 tok = .ok uid ∧
      sampleRepo.findById uid = some sampleUser ∧ sampleUser.isActive = true) := by
  have h := token_subject_must_be_active sampleRepo sampleCrypto [] 0 "H.P.SHDP".data
    sampleRepo.findById (some "Bearer H.P.SHDP".data)
  exact ⟨h.1 sampleUser rfl, h.2 sampleUser rfl⟩

theorem mem_ite_singleton {α : Type} (m m' : α) (c : Prop) [Decidable c] :
    m' ∈ (if c then [m] else []) ↔ c ∧ m' = m := by
  split <;> simp [*]

/-- **C8 counterexample.** The claim's consecutive-repeat rule is
unqualified ("no run of 3 or more identical consecutive characters"),
but the code's `/(.)\1{2,}/` never matches line terminators (`.`
excludes them): the 8-character password `"Ab1!x\n\n\n"` contains a
run of three identical consecutive characters yet
`validatePasswordStrength` accepts it with no violations. -/
theorem triple_newline_not_flagged :
    hasTripleAnyChar "Ab1!x\n\n\n".data = true ∧
    validatePasswordStrength "Ab1!x\n\n\n".data = ⟨true, []⟩ := by
  exact ⟨rfl, by decide⟩

/-- **C8 (amended).** `validatePasswordStrength` evaluates every policy
rule cumulatively: `isValid` holds iff the error list is empty, and
each rule's message is in the list exactly when that rule is violated —
length below 8, length above 128, no uppercase letter, no lowercase
letter, no digit, no symbol from the defined punctuation set, a run of
3+ identical consecutive characters whose character is not a line
terminator (the `.` of the JS regex `/(.)\1{2,}/` never matches line
terminators), and a case-insensitive denylisted substring.  Concretely,
`"Ab1!cdef"` is valid and `"password"` is invalid with the denylist
violation among its errors. -/
theorem password_policy_cumulative (p : Str) :
    ((validatePasswordStrength p).isValid = true ↔
      (validatePasswordStrength p).errors = []) ∧
    (msgTooShort ∈ (validatePasswordStrength p).errors ↔ p.length < 8) ∧
    (msgTooLong ∈ (validatePasswordStrength p).errors ↔ 128 < p.length) ∧
    (msgUpper ∈ (validatePasswordStrength p).errors ↔ p.any isUpperCh = false) ∧
    (msgLower ∈ (validatePasswordStrength p).errors ↔ p.any isLowerCh = false) ∧
    (msgDigit ∈ (validatePasswordStrength p).errors ↔ p.any isDigitCh = false) ∧
    (msgSpecial ∈ (validatePasswordStrength p).errors ↔ p.any isSpecialCh = false) ∧
    (msgTriple ∈ (validatePasswordStrength p).errors ↔ hasTriple p = true) ∧
    (msgCommon ∈ (validatePasswordStrength p).errors ↔
      commonPasswords.any (fun w => containsSub (p.map Char.toLower) w) = true) ∧
    validatePasswordStrength "Ab1!cdef".data = ⟨true, []⟩ ∧
    (validatePasswordStrength "password".data).isValid = false ∧
    msgCommon ∈ (validatePasswordStrength "password".data).errors := by
  refine ⟨?_, ?_, ?_, ?_, ?_, ?_, ?_, ?_, ?_, by decide, by decide, by decide⟩
  · simp [validatePasswordStrength, List.length_eq_zero]
  all_goals
    simp only [validatePasswordStrength, strengthErrors, List.mem_append,
      mem_ite_singleton]
    simp [msgTooShort, msgTooLong, msgUpper, msgLower, msgDigit, msgSpecial,
      msgTriple, msgCommon]

/-- **C9.** A successful `refreshToken(T)` leaves the revocation set
unchanged — its token-service call sequence (validate, generate, read
expiration clock) contains no revocation — the presented token `T`
still validates in the resulting state, the result carries a brand-new
`generateToken` product, and (under the usual codec hypotheses) the new
token validates as well, so several valid tokens coexist for the same
identity. -/
theorem refresh_does_not_revoke (repo : UserRepository) (c : Crypto)
    (revoked : List Str) (now t1 t2 : Nat) (token : Str) (r : AuthResult)
    (hok : refreshToken repo c revoked now t1 t2 token = .ok r)
    (hdec : c.decPayload (c.encPayload ⟨r.user.id, t1, t1 + expirationMs⟩) =
      some ⟨r.user.id, t1, t1 + expirationMs⟩)
    (hh : ('.' : Char) ∉ c.encHeader)
    (hp : ('.' : Char) ∉ c.encPayload ⟨r.user.id, t1, t1 + expirationMs⟩)
    (hs : ('.' : Char) ∉ c.hmac
      (c.encHeader ++ '.' :: c.encPayload ⟨r.user.id, t1, t1 + expirationMs⟩))
    (hnr : generateToken c t1 r.user.id ∉ revoked)
    (t' : Nat) (ht' : t' ≤ t1 + expirationMs) :
    applyOps revoked (refreshTokenOps now t1 t2 token r.user.id) = revoked ∧
    (∃ uid, validateToken c revoked now token = .ok uid) ∧
    r.token = generateToken c t1 r.user.id ∧
    validateToken c revoked t' r.token = .ok r.user.id := by
  unfold refreshToken at hok
  split at hok
  · exact absurd hok (by simp)
  · rename_i uid hv
    split at hok
    · exact absurd hok (by simp)
    · rename_i user hf
      split at hok
      · exact absurd hok (by simp)
      · rename_i ha
        have hr := Except.ok.inj hok
        subst hr
        refine ⟨by simp [applyOps, applyOp, refreshTokenOps], ⟨uid, hv⟩, rfl, ?_⟩
        exact validate_generated_ok c user.id t1 t' revoked hdec hh hp hs hnr ht'

/-- Closed instance of C9: refreshing the sample token changes nothing
in the (empty) revocation set, and both the presented and the freshly
issued token validate afterwards. -/
theorem refresh_does_not_revoke_witness :
    applyOps [] (refreshTokenOps 0 0 0 "H.P.SHDP".data "alice".data) = [] ∧
    (∃ uid, validateToken sampleCrypto [] 0 "H.P.SHDP".data = .ok uid) ∧
    validateToken sampleCrypto [] 5 "H.P.SHDP".data = .ok "alice".data := by
  have h := refresh_does_not_revoke sampleRepo sampleCrypto [] 0 0 0 "H.P.SHDP".data
    { user := sampleUser, token := "H.P.SHDP".data, expiresAt := 86400000 }
    rfl (by decide) (by decide) (by decide) (by decide) (by simp) 5 (by decide)
  exact ⟨h.1, h.2.1, h.2.2.2⟩

/-- **C10.** In `register`, `login` and `refreshToken`, the embedded
expiry of the issued token comes from the `generateToken` clock read
`t1` while the `expiresAt` reported to the caller comes from the later
`getTokenExpiration` clock read `t2 ≥ t1`: the token embeds `t1 + Δ`,
the caller is told `t2 + Δ`, the two agree exactly when the reads fall
on the same millisecond, and otherwise the reported value is strictly
later. -/
theorem reported_expiry_lags_embedded (repo : UserRepository)
    (digest : Str → List Nat) (salt : Str) (c : Crypto) (revoked : List Str)
    (now t1 t2 : Nat) (h12 : t1 ≤ t2) (data : RegistrationData)
    (email pw token : Str) :
    (∀ r, register repo digest salt c t1 t2 data = .ok r →
      r.token = createToken c ⟨r.user.id, t1, t1 + expirationMs⟩ ∧
      r.expiresAt = t2 + expirationMs ∧
      (r.expiresAt = t1 + expirationMs ↔ t1 = t2) ∧
      (t1 < t2 → t1 + expirationMs < r.expiresAt)) ∧
    (∀ r, login repo digest c t1 t2 email pw = .ok r →
      r.token = createToken c ⟨r.user.id, t1, t1 + expirationMs⟩ ∧
      r.expiresAt = t2 + expirationMs ∧
      (r.expiresAt = t1 + expirationMs ↔ t1 = t2) ∧
      (t1 < t2 → t1 + expirationMs < r.expiresAt)) ∧
    (∀ r, refreshToken repo c revoked now t1 t2 token = .ok r →
      r.token = createToken c ⟨r.user.id, t1, t1 + expirationMs⟩ ∧
      r.expiresAt = t2 + expirationMs ∧
      (r.expiresAt = t1 + expirationMs ↔ t1 = t2) ∧
      (t1 < t2 → t1 + expirationMs < r.expiresAt)) := by
  refine ⟨?_, ?_, ?_⟩
  · intro r hok
    unfold register at hok
    split at hok
    · exact absurd hok (by simp)
    · split at hok
      · exact absurd hok (by simp)
      · split at hok
        · exact absurd hok (by simp)
        · split at hok
          · exact absurd hok (by simp)
          · rename_i hashed hhash
            have hr := Except.ok.inj hok
            subst hr
            refine ⟨rfl, rfl, ?_, ?_⟩
            · unfold getTokenExpiration
              dsimp only
              omega
            · intro hlt
              unfold getTokenExpiration
              dsimp only
              omega
  · intro r hok
    unfold login at hok
    split at hok
    · exact absurd hok (by simp)
    · rename_i user hfind
      split at hok
      · exact absurd hok (by simp)
      · split at hok
        · exact absurd hok (by simp)
        · have hr := Except.ok.inj hok
          subst hr
          refine ⟨rfl, rfl, ?_, ?_⟩
          · unfold getTokenExpiration
            dsimp only
            omega
          · intro hlt
            unfold getTokenExpiration
            dsimp only
            omega
  · intro r hok
    unfold refreshToken at hok
    split at hok
    · exact absurd hok (by simp)
    · rename_i uid hv
      split at hok
      · exact absurd hok (by simp)
      · rename_i user hf
        split at hok
        · exact absurd hok (by simp)
        · have hr := Except.ok.inj hok
          subst hr
          refine ⟨rfl, rfl, ?_, ?_⟩
          · unfold getTokenExpiration
            dsimp only
            omega
          · intro hlt
            unfold getTokenExpiration
            dsimp only
            omega

/-- Closed instance of C10: a login whose issuance clock reads 5 and
whose expiration-report clock reads 7 returns a token embedding
`5 + Δ` while telling the caller `7 + Δ` — strictly later. -/
theorem reported_expiry_lags_embedded_witness :
    "H.Q.SHDQ".data = createToken sampleCrypto ⟨"alice".data, 5, 5 + expirationMs⟩ ∧
    (86400007 : Nat) = 7 + expirationMs ∧
    5 + expirationMs < 86400007 := by
  have h := (reported_expiry_lags_embedded sampleRepo sampleDigest "ab".data
    sampleCrypto [] 0 5 7 (by omega) ⟨"a@x".data, "alice".data, "pw".data⟩
    "a@x".data "pw".data "tok".data).2.1
    { user := sampleUser, token := "H.Q.SHDQ".data, expiresAt := 86400007 } rfl
  exact ⟨h.1, h.2.1, h.2.2.2 (by omega)⟩

end Auth
